import Mathlib

set_option maxRecDepth 16384

/-!
Verification of the spek-cli analysis-and-render pipeline (src/spectrogram.rs,
src/config.rs) against its natural-language specification.

Modelling conventions (shallow embedding):
* `f32` values are modelled as exact rationals (`ℚ`); machine rounding is not
  modelled.  Decimal literals such as `1e-9`, `0.85`, `0.75` denote the exact
  rationals the source text writes.
* Calls into external libraries and floating-point intrinsics that compute
  transcendental functions (`rustfft`'s forward FFT plus complex magnitude,
  `f32::cos`, `f32::log10`, `f32::powf`) are passed in as an explicit
  `RealOps` record of function parameters; theorems quantify over them or
  state the hypotheses about them that they need.
* Rust `Vec` indexing that is in range in every reachable state is modelled
  with `List.getD` (default `0` / default pixel); a Rust index-out-of-bounds
  panic that *is* reachable (empty palette in `create_gradient_map`) is
  modelled explicitly by an `Option`/`RunResult.panicked` layer.
* Rust `usize` casts of nonnegative floats (`as usize`) are modelled by
  `Int.toNat ∘ Int.floor`, which like the Rust cast saturates at 0 for
  negative arguments.
* Hex colour strings are modelled at the character level; for ASCII strings
  (the only ones the claims concern) Rust's byte length and byte slicing
  coincide with character length and character slicing.
-/

/-- External operations of the Rust pipeline: `cos2pi x` models
`f32::cos(2π·x)` (the Hann-window cosine, with the `2π` factor folded into
the argument), `log10c` models `f32::log10`, `powf` models `f32::powf`, and
`fftMag` models `rustfft`'s forward complex transform of a real (windowed)
buffer followed by taking the complex magnitude `c.norm()` of every bin. -/
structure RealOps where
  cos2pi : ℚ → ℚ
  log10c : ℚ → ℚ
  powf : ℚ → ℚ → ℚ
  fftMag : List ℚ → List ℚ

/-- An RGB8 pixel, modelled as a triple of naturals (each kept in 0..255 by
construction). Models `image::Rgb<u8>`. -/
abbrev Rgb : Type := ℕ × ℕ × ℕ

/-- Model of `config::ColorStop`: a gradient stop with a position (an `f32`
in the source, a rational here) and a hex colour string. -/
structure ColorStop where
  position : ℚ
  color : String
deriving DecidableEq, Repr

/-- Default `ColorStop` used only as the never-taken default of
`headD`/`getLastD` when the surrounding code guarantees nonemptiness. -/
def stopD : ColorStop := ⟨0, ""⟩

/-- Model of `spectrogram::StftResult`. -/
structure StftResult where
  magnitudes : List (List ℚ)
  num_time_frames : ℕ
  num_freq_bins : ℕ

/-- Model of `spectrogram::SpectrogramResult`.  The image is stored as the
list of pixel columns produced by `render_spectrogram` (column `x`, then row
`y`), exactly the order in which the Rust code assembles `img`. -/
structure SpectrogramResult where
  image : List (List Rgb)
  rolloff_frequencies : Option (List ℚ)
  stft : StftResult

/-- Outcome of running a fallible Rust function: `ok` models `Ok`, `err`
models an `anyhow::Error` return with the formatted message, and `panicked`
models an abort via `panic!` (index out of bounds, `unwrap` failure). -/
inductive RunResult (α : Type) where
  | ok (val : α)
  | err (msg : String)
  | panicked
deriving DecidableEq

/-- Predicate: the run returned `Ok`. -/
def RunResult.isOk {α : Type} : RunResult α → Bool
  | .ok _ => true
  | _ => false

/-- Value of a single hex digit, as recognised by Rust's
`u8::from_str_radix(_, 16)`. -/
def hexDigitVal (c : Char) : Option ℕ :=
  if '0' ≤ c ∧ c ≤ '9' then some (c.toNat - 48)
  else if 'a' ≤ c ∧ c ≤ 'f' then some (c.toNat - 87)
  else if 'A' ≤ c ∧ c ≤ 'F' then some (c.toNat - 55)
  else none

/-- Accumulating digit parser underlying `u8::from_str_radix(_, 16)`:
fails on the first character that is not a hex digit. -/
def parseHexDigits : List Char → ℕ → Option ℕ
  | [], acc => some acc
  | c :: rest, acc =>
    match hexDigitVal c with
    | none => none
    | some d => parseHexDigits rest (acc * 16 + d)

/-- Model of `u8::from_str_radix(s, 16)` on the two-character slices used by
`hex_to_rgb`: an optional leading `+` is allowed, and the remaining string
must be nonempty and consist of hex digits.  (Rust also accepts a leading
`-` but then errors on any nonzero value; on two-character slices every
outcome of that path agrees with rejecting the string, since the caller
replaces errors by `0`.)  Overflow cannot occur on at most two digits. -/
def fromStrRadix16 (cs : List Char) : Option ℕ :=
  let ds := match cs with
    | c :: rest => if c = '+' then rest else c :: rest
    | [] => []
  match ds with
  | [] => none
  | _ :: _ => parseHexDigits ds 0

/-- Model of `spectrogram::hex_to_rgb`: strip all leading `#` characters
(`trim_start_matches`), require exactly 6 characters, and parse the three
2-character slices, each falling back to `0` (`unwrap_or(0)`); any other
length yields black. -/
def hexToRgb (s : String) : Rgb :=
  let hex := s.toList.dropWhile (fun c => c = '#')
  if hex.length = 6 then
    ((fromStrRadix16 (hex.take 2)).getD 0,
     (fromStrRadix16 ((hex.drop 2).take 2)).getD 0,
     (fromStrRadix16 ((hex.drop 4).take 2)).getD 0)
  else (0, 0, 0)

/-- Model of the stable sort `sorted_stops.sort_by(partial_cmp on position)`
in `create_gradient_map` (`ℚ` has no NaN, so the `unwrap` never fires).
Rust's `sort_by` is a stable sort; `List.insertionSort` is stable for the
same comparison (an element is inserted before every equal-position element
that preceded it in processing order, i.e. followed it in the input), so it
computes the same permutation as the source. -/
def sortStops (stops : List ColorStop) : List ColorStop :=
  stops.insertionSort (fun a b => a.position ≤ b.position)

/-- Model of the window scan in `create_gradient_map`: the first adjacent
pair `(w0, w1)` of the sorted stop list with
`w0.position ≤ pos ≤ w1.position`, if any. -/
def findSeg (pos : ℚ) : List ColorStop → Option (ColorStop × ColorStop)
  | a :: b :: rest =>
    if a.position ≤ pos ∧ pos ≤ b.position then some (a, b)
    else findSeg pos (b :: rest)
  | _ => none

/-- Model of Rust's saturating `as u8` cast of a (finite) float: truncate
toward negative infinity after the arithmetic below always yields values in
`[0, 255]`, clamping out-of-range values to the endpoints. -/
def ratToU8 (q : ℚ) : ℕ := (min 255 (max 0 ⌊q⌋)).toNat

/-- Exact value of `f32::EPSILON` (2⁻²³). -/
def epsF32 : ℚ := 1 / 8388608

/-- Body of the `for i in 0..size` loop of `create_gradient_map`, computing
the colour of LUT slot `i` from the sorted stop list (which the caller
guarantees nonempty; the source indexes `sorted_stops[0]` and
`sorted_stops[len-1]`, modelled by `headD`/`getLastD`). -/
def gradientSlot (sorted : List ColorStop) (size i : ℕ) : Rgb :=
  let pos : ℚ := (i : ℚ) / ((size - 1 : ℕ) : ℚ)
  let seg := match findSeg pos sorted with
    | some ab => ab
    | none => (sorted.headD stopD, sorted.getLastD stopD)
  let start_stop := seg.1
  let end_stop := seg.2
  let range := end_stop.position - start_stop.position
  let t := if |range| < epsF32 then 0 else (pos - start_stop.position) / range
  let start_color := hexToRgb start_stop.color
  let end_color := hexToRgb end_stop.color
  (ratToU8 ((start_color.1 : ℚ) * (1 - t) + (end_color.1 : ℚ) * t),
   ratToU8 ((start_color.2.1 : ℚ) * (1 - t) + (end_color.2.1 : ℚ) * t),
   ratToU8 ((start_color.2.2 : ℚ) * (1 - t) + (end_color.2.2 : ℚ) * t))

/-- Model of `spectrogram::create_gradient_map`.  When the stop list is
empty and at least one slot is to be produced, the source code panics on the
out-of-bounds index `sorted_stops[0]` inside the loop body; this is the
`none` case. -/
def createGradientMap (stops : List ColorStop) (size : ℕ) : Option (List Rgb) :=
  if stops.isEmpty ∧ size ≠ 0 then none
  else some ((List.range size).map (fun i => gradientSlot (sortStops stops) size i))

/-- Model of the precomputed Hann window of `compute_stft`:
`0.5 * (1 - cos(2π·i/(window_size-1)))`. -/
def hannWindow (ops : RealOps) (window_size : ℕ) : List ℚ :=
  (List.range window_size).map (fun (i : ℕ) =>
    (1/2 : ℚ) * (1 - ops.cos2pi ((i : ℚ) / ((window_size : ℚ) - 1))))

/-- Model of `spectrogram::compute_stft` (progress display omitted): frame
`i` windows `samples[i*hop .. i*hop + window_size]` by the Hann window and
keeps the magnitudes of the first `window_size/2` FFT bins.  The slice
bounds are in range for every frame index below `num_time_frames` whenever
`samples.length ≥ window_size`, which the caller has checked. -/
def computeStft (ops : RealOps) (samples : List ℚ) (window_size hop_size : ℕ) :
    StftResult :=
  let num_time_frames := (samples.length - window_size) / hop_size + 1
  let num_freq_bins := window_size / 2
  let window := hannWindow ops window_size
  let magnitudes := (List.range num_time_frames).map (fun frame_idx =>
    let start := frame_idx * hop_size
    let buffer := List.zipWith (fun s w => s * w)
      ((samples.drop start).take window_size) window
    ((ops.fftMag buffer).take num_freq_bins))
  ⟨magnitudes, num_time_frames, num_freq_bins⟩

/-- The scanning loop of `compute_spectral_rolloff`: accumulate squared
magnitudes over the bins of one frame in increasing-frequency order and
return `(bin / num_freq_bins) * nyquist` at the first bin whose cumulative
energy reaches the threshold, or `nyquist` if the bins are exhausted. -/
def rolloffGo (num_freq_bins : ℕ) (nyquist threshold_energy : ℚ) :
    List ℚ → ℚ → ℕ → ℚ
  | [], _, _ => nyquist
  | mag :: rest, cumulative_energy, bin =>
    let c := cumulative_energy + mag * mag
    if threshold_energy ≤ c then ((bin : ℚ) / (num_freq_bins : ℚ)) * nyquist
    else rolloffGo num_freq_bins nyquist threshold_energy rest c (bin + 1)

/-- Per-frame body of `compute_spectral_rolloff`: total squared-magnitude
energy below `1e-10` yields the 0 Hz sentinel, otherwise the bins are
scanned against the threshold `0.85 * total`. -/
def rolloffFrame (num_freq_bins : ℕ) (nyquist : ℚ) (frame : List ℚ) : ℚ :=
  let total_energy := (frame.map (fun m => m * m)).sum
  if total_energy < (1e-10 : ℚ) then 0
  else rolloffGo num_freq_bins nyquist (total_energy * (0.85 : ℚ)) frame 0 0

/-- Model of `spectrogram::compute_spectral_rolloff`: per-frame rolloff,
then nearest-frame resampling to one value per output pixel column. -/
def computeSpectralRolloff (stft : StftResult) (sample_rate : ℕ)
    (output_width : ℕ) : List ℚ :=
  let nyquist : ℚ := (sample_rate : ℚ) / 2
  let rolloff_per_frame :=
    stft.magnitudes.map (rolloffFrame stft.num_freq_bins nyquist)
  let num_frames := rolloff_per_frame.length
  (List.range output_width).map (fun (x : ℕ) =>
    let frame_pos := ((x : ℚ) / (output_width : ℚ)) * (num_frames : ℚ)
    let frame_idx := min (⌊frame_pos⌋).toNat (num_frames - 1)
    rolloff_per_frame.getD frame_idx 0)

/-- The parallel reduction of `render_spectrogram` computing the global peak
magnitude: per-frame `fold(0.0, max)`, then `reduce(|| 0.0, max)`. -/
def globalMaxMag (stft : StftResult) : ℚ :=
  (stft.magnitudes.map (fun frame => frame.foldl max 0)).foldl max 0

/-- Colour of the pixel at column `x`, row `y` in `render_spectrogram`:
time/frequency mapping with bilinear interpolation, dB conversion against
the adaptive 100 dB dynamic range below the global peak, and gradient LUT
lookup.  This is the per-`(x, y)` body of the column loop, with the
column-invariant values recomputed (they are pure). -/
def pixelColor (ops : RealOps) (stft : StftResult) (gradient : List Rgb)
    (sample_rate width height : ℕ) (linear : Bool) (x y : ℕ) : Rgb :=
  let min_freq : ℚ := 20
  let max_freq : ℚ := (sample_rate : ℚ) / 2
  let global_max_mag := globalMaxMag stft
  let max_mag_norm := global_max_mag / ((stft.num_freq_bins : ℚ) / 2)
  let max_db := 20 * ops.log10c (max_mag_norm + (1e-9 : ℚ))
  let min_db := max_db - 100
  let db_range := max_db - min_db
  let norm_factor := (stft.num_freq_bins : ℚ) / 2
  let time_pos := ((x : ℚ) / (width : ℚ)) * (stft.num_time_frames : ℚ)
  let t0u := (⌊time_pos⌋).toNat
  let t1 := min (t0u + 1) (stft.num_time_frames - 1)
  let t_fract := time_pos - (t0u : ℚ)
  let t0 := min t0u (stft.num_time_frames - 1)
  let y_inverted := height - 1 - y
  let y_ratio := (y_inverted : ℚ) / (height : ℚ)
  let bin_pos :=
    if linear then y_ratio * (stft.num_freq_bins : ℚ)
    else
      let freq := min_freq * ops.powf (max_freq / min_freq) y_ratio
      (freq / max_freq) * (stft.num_freq_bins : ℚ)
  let f0u := (⌊bin_pos⌋).toNat
  let f1 := min (f0u + 1) (stft.num_freq_bins - 1)
  let f_fract := bin_pos - (f0u : ℚ)
  let f0 := min f0u (stft.num_freq_bins - 1)
  let m00 := (stft.magnitudes.getD t0 []).getD f0 0
  let m01 := (stft.magnitudes.getD t0 []).getD f1 0
  let m10 := (stft.magnitudes.getD t1 []).getD f0 0
  let m11 := (stft.magnitudes.getD t1 []).getD f1 0
  let m0 := m00 * (1 - t_fract) + m10 * t_fract
  let m1 := m01 * (1 - t_fract) + m11 * t_fract
  let mag := m0 * (1 - f_fract) + m1 * f_fract
  let normalized_mag := mag / norm_factor
  let db := 20 * ops.log10c (normalized_mag + (1e-9 : ℚ))
  let normalized_val := (db - min_db) / db_range
  let clamped := min (max normalized_val 0) 1
  let color_idx := (⌊clamped * 1023⌋).toNat
  gradient.getD color_idx (0, 0, 0)

/-- Model of `spectrogram::render_spectrogram` (progress display omitted):
build the 1024-slot gradient LUT, then produce the pixel columns.  `none`
models the panic propagated from `create_gradient_map` on an empty stop
set; the source contains no width/height validation. -/
def renderSpectrogram (ops : RealOps) (stft : StftResult)
    (sample_rate width height : ℕ) (stops : List ColorStop) (linear : Bool) :
    Option (List (List Rgb)) :=
  match createGradientMap stops 1024 with
  | none => none
  | some gradient =>
    some ((List.range width).map (fun x =>
      (List.range height).map (fun y =>
        pixelColor ops stft gradient sample_rate width height linear x y)))

/-- Model of `spectrogram::generate_spectrogram` (the `quiet` flag only
controls progress display and is omitted): fixed 2048-sample window with
75 % overlap, fail-fast length check, STFT, optional rolloff, render. -/
def generateSpectrogram (ops : RealOps) (samples : List ℚ)
    (sample_rate width height : ℕ) (stops : List ColorStop)
    (linear compute_rolloff : Bool) : RunResult SpectrogramResult :=
  let window_size : ℕ := 2048
  let overlap : ℚ := 0.75
  let hop_size : ℕ := (⌊(window_size : ℚ) * (1 - overlap)⌋).toNat
  if samples.length < window_size then
    .err ("File too short (need at least 2048 samples)")
  else
    let stft_result := computeStft ops samples window_size hop_size
    let rolloff_frequencies :=
      if compute_rolloff then
        some (computeSpectralRolloff stft_result sample_rate width)
      else none
    match renderSpectrogram ops stft_result sample_rate width height stops linear with
    | none => .panicked
    | some img => .ok ⟨img, rolloff_frequencies, stft_result⟩

/-- Model of `config::audacity_palette`, the built-in 4-stop default. -/
def audacityStops : List ColorStop :=
  [⟨0, "#000000"⟩, ⟨0.4, "#0000FF"⟩, ⟨0.7, "#FF0000"⟩, ⟨1, "#FFFFFF"⟩]

/-- Model of `config::default_color_stops`, the serde default applied when a
config file omits the `stops` field: `get_palette_stops_by_name("audacity")`,
which is `audacity_palette()`. -/
def defaultColorStops : List ColorStop := audacityStops

/-- Concrete instantiation of the external operations, used by witnesses and
counterexamples: all transcendental functions are the zero function and the
FFT is the identity transform (the claims proved against it either hold for
every `RealOps` or only constrain `fftMag` on all-zero buffers, where the
identity agrees with the true FFT). -/
def opsZero : RealOps := ⟨fun _ => 0, fun _ => 0, fun _ _ => 0, fun l => l⟩

/-- Pixel accessor on a run outcome: the pixel at column `x`, row `y` of the
rendered image if the run succeeded, black otherwise. -/
def pixelAt (r : RunResult SpectrogramResult) (x y : ℕ) : Rgb :=
  match r with
  | .ok res => (res.image.getD x []).getD y (0, 0, 0)
  | _ => (0, 0, 0)

/-! ## Generic list lemmas -/

lemma getD_range_map {α : Type} (f : ℕ → α) (d : α) {i n : ℕ} (h : i < n) :
    ((List.range n).map f).getD i d = f i := by
  simp [List.getD_eq_getElem?_getD, List.getElem?_map, List.getElem?_range h]

lemma getD_mem_or {α : Type} (l : List α) (n : ℕ) (d : α) :
    l.getD n d ∈ l ∨ l.getD n d = d := by
  by_cases h : n < l.length
  · exact Or.inl (List.getD_eq_getElem l d h ▸ List.getElem_mem h)
  · exact Or.inr (List.getD_eq_default l d (le_of_not_lt h))

lemma getD_eq_zero_of_all_zero {l : List ℚ} (h : ∀ a ∈ l, a = 0) (n : ℕ) :
    l.getD n 0 = 0 := by
  rcases getD_mem_or l n 0 with hm | he
  · exact h _ hm
  · exact he

lemma exists_of_mem_zipWith {α β γ : Type} {f : α → β → γ} :
    ∀ {l1 : List α} {l2 : List β} {c : γ}, c ∈ List.zipWith f l1 l2 →
      ∃ a ∈ l1, ∃ b ∈ l2, c = f a b
  | a :: t1, b :: t2, c, hc => by
    rcases List.mem_cons.mp hc with h | h
    · exact ⟨a, List.mem_cons_self a t1, b, List.mem_cons_self b t2, h⟩
    · rcases exists_of_mem_zipWith h with ⟨a', ha', b', hb', rfl⟩
      exact ⟨a', List.mem_cons_of_mem a ha', b', List.mem_cons_of_mem b hb', rfl⟩

lemma foldl_max_of_all_zero : ∀ {l : List ℚ}, (∀ a ∈ l, a = 0) → l.foldl max 0 = 0
  | [], _ => rfl
  | a :: t, h => by
    have ha : a = 0 := h a (List.mem_cons_self a t)
    have ht : ∀ b ∈ t, b = 0 := fun b hb => h b (List.mem_cons_of_mem a hb)
    simpa [ha] using foldl_max_of_all_zero ht

lemma sum_sq_of_all_zero {l : List ℚ} (h : ∀ a ∈ l, a = 0) :
    (l.map (fun m => m * m)).sum = 0 := by
  rw [List.sum_eq_zero]
  intro x hx
  rcases List.mem_map.mp hx with ⟨a, ha, rfl⟩
  rw [h a ha, mul_zero]

/-! ## Lemmas about the pipeline on all-zero input -/

lemma computeStft_all_zero {ops : RealOps} {samples : List ℚ}
    (hfft : ∀ l : List ℚ, (∀ a ∈ l, a = 0) → ∀ b ∈ ops.fftMag l, b = 0)
    (hz : ∀ a ∈ samples, a = 0) (ws hs : ℕ) :
    ∀ fr ∈ (computeStft ops samples ws hs).magnitudes, ∀ m ∈ fr, m = 0 := by
  intro fr hfr m hm
  simp only [computeStft, List.mem_map] at hfr
  rcases hfr with ⟨i, _, rfl⟩
  have hbuf : ∀ a ∈ List.zipWith (fun s w => s * w)
      ((samples.drop (i * hs)).take ws) (hannWindow ops ws), a = 0 := by
    intro a ha
    rcases exists_of_mem_zipWith ha with ⟨s, hs', b, _, rfl⟩
    have : s = 0 := hz s (List.mem_of_mem_drop (List.mem_of_mem_take hs'))
    rw [this, zero_mul]
  exact hfft _ hbuf m (List.mem_of_mem_take hm)

lemma globalMaxMag_all_zero {stft : StftResult}
    (hz : ∀ fr ∈ stft.magnitudes, ∀ m ∈ fr, m = 0) : globalMaxMag stft = 0 := by
  unfold globalMaxMag
  apply foldl_max_of_all_zero
  intro a ha
  rcases List.mem_map.mp ha with ⟨fr, hfr, rfl⟩
  exact foldl_max_of_all_zero (hz fr hfr)

lemma rolloffFrame_all_zero {frame : List ℚ} (hz : ∀ m ∈ frame, m = 0)
    (nfb : ℕ) (nyq : ℚ) : rolloffFrame nfb nyq frame = 0 := by
  unfold rolloffFrame
  rw [sum_sq_of_all_zero hz]
  norm_num

lemma computeSpectralRolloff_all_zero {stft : StftResult}
    (hz : ∀ fr ∈ stft.magnitudes, ∀ m ∈ fr, m = 0) (sr w : ℕ) :
    computeSpectralRolloff stft sr w = List.replicate w 0 := by
  unfold computeSpectralRolloff
  refine List.eq_replicate_iff.mpr ⟨by simp, ?_⟩
  intro a ha
  rcases List.mem_map.mp ha with ⟨x, _, rfl⟩
  apply getD_eq_zero_of_all_zero
  intro b hb
  rcases List.mem_map.mp hb with ⟨fr, hfr, rfl⟩
  exact rolloffFrame_all_zero (hz fr hfr) _ _

lemma pixelColor_all_zero {ops : RealOps} {stft : StftResult}
    (gradient : List Rgb) (hz : ∀ fr ∈ stft.magnitudes, ∀ m ∈ fr, m = 0)
    (sr w h : ℕ) (linear : Bool) (x y : ℕ) :
    pixelColor ops stft gradient sr w h linear x y = gradient.getD 1023 (0, 0, 0) := by
  have hget : ∀ t f : ℕ, (stft.magnitudes.getD t []).getD f 0 = 0 := by
    intro t f
    apply getD_eq_zero_of_all_zero
    intro a ha
    rcases getD_mem_or stft.magnitudes t [] with hm | he
    · exact hz _ hm a ha
    · rw [he] at ha
      simp at ha
  have hmax := globalMaxMag_all_zero hz
  simp only [pixelColor, hmax, hget, zero_mul, mul_zero, add_zero, zero_add,
    zero_div]
  rw [show ∀ B : ℚ, B - (B - 100) = 100 from fun B => by ring]
  norm_num
  rfl

lemma render_all_zero (ops : RealOps) {stft : StftResult}
    (hz : ∀ fr ∈ stft.magnitudes, ∀ m ∈ fr, m = 0)
    {stops : List ColorStop} (hstops : stops ≠ []) (sr w h : ℕ) (linear : Bool) :
    ∃ img, renderSpectrogram ops stft sr w h stops linear = some img ∧
      ∀ x < w, ∀ y < h,
        (img.getD x []).getD y (0, 0, 0) = gradientSlot (sortStops stops) 1024 1023 := by
  have hne : ¬(stops.isEmpty ∧ (1024 : ℕ) ≠ 0) := by
    simp [List.isEmpty_iff, hstops]
  unfold renderSpectrogram createGradientMap
  rw [if_neg hne]
  refine ⟨_, rfl, ?_⟩
  intro x hx y hy
  rw [getD_range_map _ _ hx, getD_range_map _ _ hy,
    pixelColor_all_zero _ hz sr w h linear x y,
    getD_range_map _ _ (by norm_num : (1023 : ℕ) < 1024)]

/-! ## Claim C1 -/

/-- Claim C1 (amended): for an all-zero sample buffer of length greater than
2048, any sample rate, any nonempty palette and any scale mode, the pipeline
yields a rolloff value of 0.0 Hz for every output column, and every pixel of
the rendered spectrogram equals `LUT[1023]` — the colour of the HIGHEST
normalized dB value — because silence makes every pixel's dB equal the
global peak dB, so the normalized value is 1, not 0.  (The original claim
said every pixel equals `LUT[0]`.) -/
theorem C1_theorem (ops : RealOps) (samples : List ℚ) (sr w h : ℕ)
    (stops : List ColorStop) (linear : Bool)
    (hfft : ∀ l : List ℚ, (∀ a ∈ l, a = 0) → ∀ b ∈ ops.fftMag l, b = 0)
    (hz : ∀ a ∈ samples, a = 0) (hlen : 2048 < samples.length)
    (hstops : stops ≠ []) :
    ∃ img stft, generateSpectrogram ops samples sr w h stops linear true =
        .ok ⟨img, some (List.replicate w 0), stft⟩ ∧
      ∀ x < w, ∀ y < h,
        (img.getD x []).getD y (0, 0, 0) = gradientSlot (sortStops stops) 1024 1023 := by
  have hzs := computeStft_all_zero hfft hz 2048
    ((⌊((2048 : ℕ) : ℚ) * (1 - (0.75 : ℚ))⌋).toNat)
  obtain ⟨img, hr, hp⟩ := render_all_zero ops hzs hstops sr w h linear
  refine ⟨img, computeStft ops samples 2048
    ((⌊((2048 : ℕ) : ℚ) * (1 - (0.75 : ℚ))⌋).toNat), ?_, hp⟩
  simp only [generateSpectrogram]
  rw [if_neg (by omega), computeSpectralRolloff_all_zero hzs sr w, hr]
  rfl

/-- Witness for C1: the amended claim instantiated on 2049 zero samples at
44.1 kHz, a 1×1 image, the audacity palette, linear scale. -/
theorem C1_witness :
    (∀ a ∈ List.replicate 2049 (0 : ℚ), a = 0) ∧
    2048 < (List.replicate 2049 (0 : ℚ)).length ∧
    audacityStops ≠ [] ∧
    (∃ img stft,
      generateSpectrogram opsZero (List.replicate 2049 0) 44100 1 1 audacityStops true true =
        .ok ⟨img, some (List.replicate 1 0), stft⟩ ∧
      ∀ x < 1, ∀ y < 1,
        (img.getD x []).getD y (0, 0, 0) = gradientSlot (sortStops audacityStops) 1024 1023) :=
  ⟨fun _ ha => List.eq_of_mem_replicate ha,
    by rw [List.length_replicate]; norm_num,
    by simp [audacityStops],
    C1_theorem opsZero (List.replicate 2049 0) 44100 1 1 audacityStops true
      (fun _ h => h) (fun _ ha => List.eq_of_mem_replicate ha)
      (by rw [List.length_replicate]; norm_num) (by simp [audacityStops])⟩

lemma hexToRgb_black : hexToRgb ("#000000") = (0, 0, 0) := by decide

lemma hexToRgb_blue : hexToRgb ("#0000FF") = (0, 0, 255) := by decide

lemma hexToRgb_red : hexToRgb ("#FF0000") = (255, 0, 0) := by decide

lemma hexToRgb_white : hexToRgb ("#FFFFFF") = (255, 255, 255) := by decide

set_option maxHeartbeats 1000000 in
lemma sortStops_audacity : sortStops audacityStops = audacityStops := by
  norm_num [sortStops, audacityStops, List.insertionSort, List.orderedInsert]

set_option maxHeartbeats 1000000 in
lemma gradientSlot_aud_1023 :
    gradientSlot (sortStops audacityStops) 1024 1023 = (255, 255, 255) := by
  rw [sortStops_audacity]
  have habs : |(3 / 10 : ℚ)| = 3 / 10 := by
    rw [abs_of_nonneg]
    norm_num
  norm_num [gradientSlot, audacityStops, findSeg, ratToU8, epsF32, habs,
    hexToRgb_red, hexToRgb_white, Int.toNat_ofNat]
  all_goals decide

set_option maxHeartbeats 1000000 in
lemma gradientSlot_aud_0 :
    gradientSlot (sortStops audacityStops) 1024 0 = (0, 0, 0) := by
  rw [sortStops_audacity]
  norm_num [gradientSlot, audacityStops, findSeg, ratToU8, epsF32,
    hexToRgb_black, hexToRgb_blue]

/-- Counterexample to C1 as stated: on 2049 zero samples with the audacity
palette (1×1 image, linear scale), the single rendered pixel is
`(255, 255, 255) = LUT[1023]`, while `LUT[0] = (0, 0, 0)`; so not every
pixel equals `LUT[0]`. -/
theorem C1_counterexample :
    pixelAt (generateSpectrogram opsZero (List.replicate 2049 0) 44100 1 1
      audacityStops true true) 0 0 = (255, 255, 255) ∧
    gradientSlot (sortStops audacityStops) 1024 0 = (0, 0, 0) ∧
    ((255, 255, 255) : Rgb) ≠ ((0, 0, 0) : Rgb) := by
  refine ⟨?_, gradientSlot_aud_0, by decide⟩
  have hzs := @computeStft_all_zero opsZero (List.replicate 2049 0)
    (fun _ h => h) (fun _ ha => List.eq_of_mem_replicate ha)
    2048 ((⌊((2048 : ℕ) : ℚ) * (1 - (0.75 : ℚ))⌋).toNat)
  obtain ⟨img, hr, hp⟩ := @render_all_zero opsZero _ hzs
    audacityStops (by simp [audacityStops]) 44100 1 1 true
  have hpix := hp 0 (by norm_num) 0 (by norm_num)
  simp only [pixelAt, generateSpectrogram]
  rw [if_neg (by simp), hr]
  exact hpix.trans gradientSlot_aud_1023

/-! ## Claim C2 -/

/-- Claim C2 (amended): the source contains no width/height validation at
all.  For any requested dimensions — including width 0 or height 0 — a
buffer of at least 2048 samples and a nonempty palette produce an `Ok`
result carrying an image with exactly `width` columns of `height` pixels
each (an empty image when either dimension is 0), never an
`InvalidDimensions` error. -/
lemma generate_ok_of (ops : RealOps) (samples : List ℚ) (sr w h : ℕ)
    (stops : List ColorStop) (linear roll : Bool)
    (hlen : 2048 ≤ samples.length) (hstops : stops ≠ []) :
    ∃ r, generateSpectrogram ops samples sr w h stops linear roll = .ok r ∧
      r.image.length = w ∧ ∀ col ∈ r.image, col.length = h := by
  simp only [generateSpectrogram, renderSpectrogram, createGradientMap]
  rw [if_neg (by omega), if_neg (by simp [List.isEmpty_iff, hstops])]
  refine ⟨_, rfl, by simp, ?_⟩
  intro col hcol
  rcases List.mem_map.mp hcol with ⟨x, _, rfl⟩
  simp

theorem C2_theorem (ops : RealOps) (samples : List ℚ) (sr w h : ℕ)
    (stops : List ColorStop) (linear roll : Bool)
    (hlen : 2048 ≤ samples.length) (hstops : stops ≠ []) :
    ∃ r, generateSpectrogram ops samples sr w h stops linear roll = .ok r ∧
      r.image.length = w ∧ ∀ col ∈ r.image, col.length = h :=
  generate_ok_of ops samples sr w h stops linear roll hlen hstops

/-- Witness for C2: 2048 zero samples, requested dimensions 0 × 0, audacity
palette — generation succeeds with a 0-column image. -/
theorem C2_witness :
    (2048 ≤ (List.replicate 2048 (0 : ℚ)).length ∧ audacityStops ≠ []) ∧
    (∃ r, generateSpectrogram opsZero (List.replicate 2048 0) 44100 0 0
        audacityStops true false = .ok r ∧
      r.image.length = 0 ∧ ∀ col ∈ r.image, col.length = 0) :=
  ⟨⟨by rw [List.length_replicate], by simp [audacityStops]⟩,
    C2_theorem opsZero (List.replicate 2048 0) 44100 0 0 audacityStops true false
      (by rw [List.length_replicate]) (by simp [audacityStops])⟩

/-- Counterexample to C2 as stated: with width = 0 and height = 0 the run
returns `Ok` (an empty image), so it does not fail with any error. -/
theorem C2_counterexample :
    (generateSpectrogram opsZero (List.replicate 2048 0) 44100 0 0
      audacityStops true false).isOk = true := by
  obtain ⟨r, hok, -, -⟩ := generate_ok_of opsZero (List.replicate 2048 0) 44100 0 0
    audacityStops true false (by rw [List.length_replicate]) (by simp [audacityStops])
  rw [hok]
  rfl

/-! ## Claim C3 -/

/-- Claim C3 (amended): an empty stop set reaching the pipeline makes it
abort — `create_gradient_map` panics on the out-of-bounds index
`sorted_stops[0]` in its first loop iteration.  No substitution of the
built-in default happens inside the pipeline; the 4-stop default palette is
substituted only outside it (serde's field default when a config file omits
`stops`, and `main`, which unconditionally overwrites `config.colors.stops`
with a built-in palette before calling `generate_spectrogram`). -/
lemma generate_panicked_of_empty (ops : RealOps) (samples : List ℚ)
    (sr w h : ℕ) (linear roll : Bool) (hlen : 2048 ≤ samples.length) :
    generateSpectrogram ops samples sr w h [] linear roll = .panicked := by
  simp only [generateSpectrogram, renderSpectrogram, createGradientMap]
  rw [if_neg (by omega)]
  rfl

theorem C3_theorem (ops : RealOps) (samples : List ℚ) (sr w h : ℕ)
    (linear roll : Bool) (hlen : 2048 ≤ samples.length) :
    generateSpectrogram ops samples sr w h [] linear roll = .panicked ∧
    defaultColorStops.length = 4 :=
  ⟨generate_panicked_of_empty ops samples sr w h linear roll hlen, rfl⟩

/-- Witness for C3: the pipeline run on 2048 zero samples with an empty
stop set panics. -/
theorem C3_witness :
    2048 ≤ (List.replicate 2048 (0 : ℚ)).length ∧
    (generateSpectrogram opsZero (List.replicate 2048 0) 44100 1 1 [] true false =
        .panicked ∧
      defaultColorStops.length = 4) :=
  ⟨by rw [List.length_replicate],
    C3_theorem opsZero (List.replicate 2048 0) 44100 1 1 true false
      (by rw [List.length_replicate])⟩

/-- Counterexample to C3 as stated: a concrete run whose `ColorConfig` has
an empty stop set aborts (panics) instead of silently substituting the
built-in default palette. -/
theorem C3_counterexample :
    generateSpectrogram opsZero (List.replicate 2048 0) 44100 1 1 [] true false =
      .panicked :=
  generate_panicked_of_empty opsZero (List.replicate 2048 0) 44100 1 1 true false
    (by rw [List.length_replicate])

/-! ## Claim C4 -/

/-- Claim C4 (amended): a hex string whose length after stripping leading
`#` characters is not 6 resolves to black `(0,0,0)` without failing.  A
6-character string is instead parsed as three independent 2-character
slices, each falling back to `0` only for itself, so a 6-character string
containing non-hex characters does NOT in general resolve to black (e.g.
`"12GG34"` resolves to `(18, 0, 52)`). -/
theorem C4_theorem (s : String)
    (h : (s.toList.dropWhile (fun c => c = '#')).length ≠ 6) :
    hexToRgb s = (0, 0, 0) := by
  simp only [hexToRgb]
  rw [if_neg h]

/-- Witness for C4: `"#12345"` has 5 characters after stripping `#` and
resolves to black. -/
theorem C4_witness :
    ((("#12345" : String).toList.dropWhile (fun c => c = '#')).length ≠ 6) ∧
    hexToRgb ("#12345") = (0, 0, 0) :=
  ⟨by decide, C4_theorem ("#12345") (by decide)⟩

/-- Counterexample to C4 as stated: the 6-character string `"12GG34"`
contains the non-hex-digit character `G`, yet resolves to `(18, 0, 52)`,
not `(0, 0, 0)` — only the malformed middle pair falls back to zero. -/
theorem C4_counterexample :
    hexToRgb ("12GG34") = (18, 0, 52) ∧
    ((18, 0, 52) : Rgb) ≠ ((0, 0, 0) : Rgb) ∧
    ("12GG34" : String).toList.length = 6 ∧
    hexDigitVal 'G' = none := by
  refine ⟨by decide, by decide, by decide, by decide⟩

/-! ## Claim C6 -/

/-- Claim C6: a buffer of fewer than 2048 samples makes
`generate_spectrogram` fail immediately with the "File too short" error
(the embedding returns the error from the length check, before the STFT,
rolloff or render expressions), and for every buffer of at least 2048
samples the run gets past that check: it never returns an error (the
length check is the only error return in the pipeline; the run either
succeeds or — for an empty palette — panics). -/
theorem C6_theorem (ops : RealOps) (samples : List ℚ) (sr w h : ℕ)
    (stops : List ColorStop) (linear roll : Bool) :
    (samples.length < 2048 →
      generateSpectrogram ops samples sr w h stops linear roll =
        .err ("File too short (need at least 2048 samples)")) ∧
    (2048 ≤ samples.length → ∀ msg,
      generateSpectrogram ops samples sr w h stops linear roll ≠ .err msg) := by
  constructor
  · intro h1
    simp only [generateSpectrogram]
    rw [if_pos h1]
  · intro h1 msg
    simp only [generateSpectrogram]
    rw [if_neg (by omega)]
    cases hrender : renderSpectrogram ops
        (computeStft ops samples 2048 ((⌊((2048 : ℕ) : ℚ) * (1 - (0.75 : ℚ))⌋).toNat))
        sr w h stops linear with
    | none => simp [hrender]
    | some img => simp [hrender]

/-- Witness for C6: 5 samples produce the "File too short" error; 2048
samples never produce an error. -/
theorem C6_witness :
    generateSpectrogram opsZero (List.replicate 5 0) 44100 1 1 audacityStops
        true false = .err ("File too short (need at least 2048 samples)") ∧
    ∀ msg, generateSpectrogram opsZero (List.replicate 2048 0) 44100 1 1
        audacityStops true false ≠ .err msg :=
  ⟨(C6_theorem opsZero (List.replicate 5 0) 44100 1 1 audacityStops true false).1
      (by rw [List.length_replicate]; norm_num),
    (C6_theorem opsZero (List.replicate 2048 0) 44100 1 1 audacityStops true false).2
      (by rw [List.length_replicate])⟩

/-! ## Claim C5 -/

/-- Claim C5: with the fixed window of 2048 samples and hop of 512 (the hop
the pipeline computes as `(2048 * (1 - 0.75)) as usize`), a buffer of
`N ≥ 2048` samples yields exactly `(N - 2048) / 512 + 1` STFT frames, each
holding exactly `1024 = 2048 / 2` magnitude bins, and frame `i` is computed
from the window of samples starting at offset `i * 512`. -/
theorem C5_theorem (ops : RealOps) (samples : List ℚ)
    (hlen : 2048 ≤ samples.length)
    (hfftlen : ∀ l : List ℚ, (ops.fftMag l).length = l.length) :
    ((⌊((2048 : ℕ) : ℚ) * (1 - (0.75 : ℚ))⌋).toNat = 512) ∧
    (computeStft ops samples 2048 512).num_time_frames =
      (samples.length - 2048) / 512 + 1 ∧
    (computeStft ops samples 2048 512).num_freq_bins = 1024 ∧
    (computeStft ops samples 2048 512).magnitudes.length =
      (samples.length - 2048) / 512 + 1 ∧
    ∀ i < (samples.length - 2048) / 512 + 1,
      (computeStft ops samples 2048 512).magnitudes.getD i [] =
        (ops.fftMag (List.zipWith (fun s w => s * w)
          ((samples.drop (i * 512)).take 2048) (hannWindow ops 2048))).take 1024 ∧
      ((computeStft ops samples 2048 512).magnitudes.getD i []).length = 1024 := by
  refine ⟨by norm_num; decide, rfl, rfl, by simp [computeStft], ?_⟩
  intro i hi
  have hgd : (computeStft ops samples 2048 512).magnitudes.getD i [] =
      (ops.fftMag (List.zipWith (fun s w => s * w)
        ((samples.drop (i * 512)).take 2048) (hannWindow ops 2048))).take 1024 := by
    simp only [computeStft]
    exact getD_range_map _ _ hi
  refine ⟨hgd, ?_⟩
  rw [hgd]
  have hbound : i * 512 + 2048 ≤ samples.length := by
    have h2 : i ≤ (samples.length - 2048) / 512 := by omega
    have h3 : i * 512 ≤ samples.length - 2048 :=
      (Nat.le_div_iff_mul_le (by norm_num)).mp h2
    omega
  simp [List.length_take, List.length_drop, hfftlen, List.length_zipWith,
    hannWindow]
  omega

/-- Witness for C5: 2048 zero samples with the identity FFT give one frame
of 1024 bins. -/
theorem C5_witness :
    (2048 ≤ (List.replicate 2048 (0 : ℚ)).length ∧
      ∀ l : List ℚ, (opsZero.fftMag l).length = l.length) ∧
    (((⌊((2048 : ℕ) : ℚ) * (1 - (0.75 : ℚ))⌋).toNat = 512) ∧
    (computeStft opsZero (List.replicate 2048 0) 2048 512).num_time_frames =
      ((List.replicate 2048 (0 : ℚ)).length - 2048) / 512 + 1 ∧
    (computeStft opsZero (List.replicate 2048 0) 2048 512).num_freq_bins = 1024 ∧
    (computeStft opsZero (List.replicate 2048 0) 2048 512).magnitudes.length =
      ((List.replicate 2048 (0 : ℚ)).length - 2048) / 512 + 1 ∧
    ∀ i < ((List.replicate 2048 (0 : ℚ)).length - 2048) / 512 + 1,
      (computeStft opsZero (List.replicate 2048 0) 2048 512).magnitudes.getD i [] =
        (opsZero.fftMag (List.zipWith (fun s w => s * w)
          (((List.replicate 2048 (0 : ℚ)).drop (i * 512)).take 2048)
          (hannWindow opsZero 2048))).take 1024 ∧
      ((computeStft opsZero (List.replicate 2048 0) 2048 512).magnitudes.getD i []).length
        = 1024) :=
  ⟨⟨by rw [List.length_replicate], fun _ => rfl⟩,
    C5_theorem opsZero (List.replicate 2048 0)
      (by rw [List.length_replicate]) (fun _ => rfl)⟩

/-! ## Claim C10 -/

/-- Claim C10: a frame whose total squared-magnitude energy is at least
`1e-10` but whose bin-0 energy alone reaches 85 % of the total makes the
scan stop at bin 0, returning `(0 / num_freq_bins) * nyquist = 0` — exactly
the same value the near-silence sentinel produces, so a 0 Hz rolloff entry
cannot distinguish a silent frame from a DC-dominated one. -/
theorem C10_theorem (m0 : ℚ) (rest : List ℚ) (nfb : ℕ) (nyq : ℚ)
    (htot : (1e-10 : ℚ) ≤ ((m0 :: rest).map (fun m => m * m)).sum)
    (hdc : ((m0 :: rest).map (fun m => m * m)).sum * (0.85 : ℚ) ≤ m0 * m0) :
    rolloffFrame nfb nyq (m0 :: rest) = 0 ∧
    (∀ frame : List ℚ, (frame.map (fun m => m * m)).sum < (1e-10 : ℚ) →
      rolloffFrame nfb nyq frame = 0) := by
  constructor
  · simp only [rolloffFrame, rolloffGo]
    rw [if_neg (not_lt.mpr htot), if_pos (by rw [zero_add]; exact hdc)]
    simp
  · intro fr hfr
    simp only [rolloffFrame]
    rw [if_pos hfr]

/-- Witness for C10: frame `[10, 1]` has total energy 101 ≥ 1e-10 and DC
energy 100 ≥ 85.85 = 0.85·101, so its rolloff is exactly 0. -/
theorem C10_witness :
    ((1e-10 : ℚ) ≤ ((((10 : ℚ) :: [1]).map (fun m => m * m)).sum) ∧
      ((((10 : ℚ) :: [1]).map (fun m => m * m)).sum) * (0.85 : ℚ) ≤ (10 : ℚ) * 10) ∧
    (rolloffFrame 1024 22050 ((10 : ℚ) :: [1]) = 0 ∧
      (∀ frame : List ℚ, (frame.map (fun m => m * m)).sum < (1e-10 : ℚ) →
        rolloffFrame 1024 22050 frame = 0)) :=
  ⟨⟨by norm_num, by norm_num⟩,
    C10_theorem 10 [1] 1024 22050 (by norm_num) (by norm_num)⟩

/-! ## Claim C7 -/

/-- Cumulative squared-magnitude energy of bins `0..k` (inclusive) of a
frame, the quantity the rolloff scan accumulates. -/
def cumEnergy (frame : List ℚ) (k : ℕ) : ℚ :=
  ((frame.take (k + 1)).map (fun m => m * m)).sum

lemma cumEnergy_zero (m : ℚ) (rest : List ℚ) : cumEnergy (m :: rest) 0 = m * m := by
  simp [cumEnergy]

lemma cumEnergy_succ (m : ℚ) (rest : List ℚ) (k : ℕ) :
    cumEnergy (m :: rest) (k + 1) = m * m + cumEnergy rest k := by
  simp [cumEnergy]

lemma rolloffGo_eq_of_firstCross (nfb : ℕ) (nyq thr : ℚ) :
    ∀ (rest : List ℚ) (c : ℚ) (b k : ℕ), k < rest.length →
      thr ≤ c + cumEnergy rest k →
      (∀ j < k, c + cumEnergy rest j < thr) →
      rolloffGo nfb nyq thr rest c b = (((b + k : ℕ) : ℚ) / (nfb : ℚ)) * nyq
  | [], _, _, k, hk, _, _ => absurd hk (by simp)
  | m :: rest, c, b, k, hk, hcross, hmin => by
    match k with
    | 0 =>
      rw [cumEnergy_zero] at hcross
      simp only [rolloffGo]
      rw [if_pos hcross]
      simp
    | k' + 1 =>
      have h0 : c + m * m < thr := by
        have := hmin 0 (Nat.succ_pos k')
        rwa [cumEnergy_zero] at this
      have IH := rolloffGo_eq_of_firstCross nfb nyq thr rest (c + m * m) (b + 1) k'
        (by simpa using Nat.lt_of_succ_lt_succ hk)
        (by rw [cumEnergy_succ] at hcross; linarith)
        (fun j hj => by
          have := hmin (j + 1) (Nat.succ_lt_succ hj)
          rw [cumEnergy_succ] at this
          linarith)
      simp only [rolloffGo]
      rw [if_neg (not_le.mpr h0), IH]
      norm_num [Nat.add_assoc, Nat.add_comm 1 k']

lemma rolloffGo_eq_nyq (nfb : ℕ) (nyq thr : ℚ) :
    ∀ (rest : List ℚ) (c : ℚ) (b : ℕ),
      (∀ j < rest.length, c + cumEnergy rest j < thr) →
      rolloffGo nfb nyq thr rest c b = nyq
  | [], _, _, _ => rfl
  | m :: rest, c, b, h => by
    have h0 : c + m * m < thr := by
      have := h 0 (by simp)
      rwa [cumEnergy_zero] at this
    simp only [rolloffGo]
    rw [if_neg (not_le.mpr h0)]
    exact rolloffGo_eq_nyq nfb nyq thr rest (c + m * m) (b + 1)
      (fun j hj => by
        have := h (j + 1) (by simpa using Nat.succ_lt_succ hj)
        rw [cumEnergy_succ] at this
        linarith)

lemma rolloffGo_cases (nfb : ℕ) (nyq thr : ℚ) :
    ∀ (rest : List ℚ) (c : ℚ) (b : ℕ),
      rolloffGo nfb nyq thr rest c b = nyq ∨
      ∃ j < rest.length, rolloffGo nfb nyq thr rest c b =
        (((b + j : ℕ) : ℚ) / (nfb : ℚ)) * nyq
  | [], _, _ => Or.inl rfl
  | m :: rest, c, b => by
    by_cases hc : thr ≤ c + m * m
    · refine Or.inr ⟨0, by simp, ?_⟩
      simp only [rolloffGo]
      rw [if_pos hc]
      simp
    · rcases rolloffGo_cases nfb nyq thr rest (c + m * m) (b + 1) with h | ⟨j, hj, hres⟩
      · left
        simp only [rolloffGo]
        rw [if_neg hc]
        exact h
      · refine Or.inr ⟨j + 1, by simpa using Nat.succ_lt_succ hj, ?_⟩
        simp only [rolloffGo]
        rw [if_neg hc, hres]
        norm_num [Nat.add_assoc, Nat.add_comm 1 j]

/-- Claim C7: every frame's rolloff lies in `[0, nyquist]`; a frame with
total squared-magnitude energy below `1e-10` yields the 0 Hz sentinel;
otherwise the scan returns `(bin / num_freq_bins) * nyquist` at the first
bin whose cumulative energy reaches `0.85` of the total, and `nyquist` if no
bin crosses the threshold.  The length hypothesis reflects that the frames
of a well-formed `StftResult` hold at most `num_freq_bins` magnitudes. -/
theorem C7_theorem (frame : List ℚ) (nfb : ℕ) (nyq : ℚ)
    (hlen : frame.length ≤ nfb) (hnyq : 0 ≤ nyq) :
    (0 ≤ rolloffFrame nfb nyq frame ∧ rolloffFrame nfb nyq frame ≤ nyq) ∧
    ((frame.map (fun m => m * m)).sum < (1e-10 : ℚ) →
      rolloffFrame nfb nyq frame = 0) ∧
    ((1e-10 : ℚ) ≤ (frame.map (fun m => m * m)).sum →
      (∀ k < frame.length,
        (frame.map (fun m => m * m)).sum * (0.85 : ℚ) ≤ cumEnergy frame k →
        (∀ j < k, cumEnergy frame j < (frame.map (fun m => m * m)).sum * (0.85 : ℚ)) →
        rolloffFrame nfb nyq frame = ((k : ℚ) / (nfb : ℚ)) * nyq) ∧
      ((∀ k < frame.length,
          cumEnergy frame k < (frame.map (fun m => m * m)).sum * (0.85 : ℚ)) →
        rolloffFrame nfb nyq frame = nyq)) := by
  refine ⟨?_, ?_, ?_⟩
  · by_cases hlt : (frame.map (fun m => m * m)).sum < (1e-10 : ℚ)
    · simp only [rolloffFrame]
      rw [if_pos hlt]
      exact ⟨le_refl 0, hnyq⟩
    · simp only [rolloffFrame]
      rw [if_neg hlt]
      rcases rolloffGo_cases nfb nyq ((frame.map (fun m => m * m)).sum * (0.85 : ℚ))
          frame 0 0 with h | ⟨j, hj, hres⟩
      · rw [h]
        exact ⟨hnyq, le_refl nyq⟩
      · rw [hres]
        constructor
        · exact mul_nonneg (div_nonneg (Nat.cast_nonneg _) (Nat.cast_nonneg _)) hnyq
        · rcases Nat.eq_zero_or_pos nfb with h0 | hpos
          · subst h0
            simp [hnyq]
          · have hle1 : (((0 + j : ℕ) : ℚ) / (nfb : ℚ)) ≤ 1 := by
              rw [div_le_one (by exact_mod_cast hpos)]
              exact_mod_cast le_of_lt (lt_of_lt_of_le (by omega : 0 + j < frame.length) hlen)
            exact mul_le_of_le_one_left hnyq hle1
  · intro hlt
    simp only [rolloffFrame]
    rw [if_pos hlt]
  · intro htot
    constructor
    · intro k hk hcross hmin
      simp only [rolloffFrame]
      rw [if_neg (not_lt.mpr htot)]
      have := rolloffGo_eq_of_firstCross nfb nyq
        ((frame.map (fun m => m * m)).sum * (0.85 : ℚ)) frame 0 0 k hk
        (by rw [zero_add]; exact hcross)
        (fun j hj => by rw [zero_add]; exact hmin j hj)
      rw [this]
      norm_num
    · intro hall
      simp only [rolloffFrame]
      rw [if_neg (not_lt.mpr htot)]
      exact rolloffGo_eq_nyq nfb nyq _ frame 0 0
        (fun j hj => by rw [zero_add]; exact hall j hj)

/-- Witness for C7: frame `[1, 0, 0]` (3 ≤ 4 bins, nyquist 22050 ≥ 0)
satisfies the rolloff bounds. -/
theorem C7_witness :
    (([1, 0, 0] : List ℚ).length ≤ 4 ∧ (0 : ℚ) ≤ 22050) ∧
    (0 ≤ rolloffFrame 4 22050 [1, 0, 0] ∧ rolloffFrame 4 22050 [1, 0, 0] ≤ 22050) :=
  ⟨⟨by decide, by norm_num⟩,
    (C7_theorem [1, 0, 0] 4 22050 (by decide) (by norm_num)).1⟩

/-! ## Claim C8: support lemmas -/

instance : IsTotal ColorStop (fun a b => a.position ≤ b.position) :=
  ⟨fun a b => le_total a.position b.position⟩

instance : IsTrans ColorStop (fun a b => a.position ≤ b.position) :=
  ⟨fun _ _ _ h1 h2 => le_trans h1 h2⟩

lemma hexDigitVal_le {c : Char} {v : ℕ} (h : hexDigitVal c = some v) : v ≤ 15 := by
  unfold hexDigitVal at h
  split_ifs at h with h1 h2 h3
  · obtain ⟨-, hb⟩ := h1
    rw [Char.le_def, UInt32.le_def, BitVec.le_def] at hb
    have hb2 : c.toNat ≤ 57 := hb
    cases h
    omega
  · obtain ⟨-, hb⟩ := h2
    rw [Char.le_def, UInt32.le_def, BitVec.le_def] at hb
    have hb2 : c.toNat ≤ 102 := hb
    cases h
    omega
  · obtain ⟨-, hb⟩ := h3
    rw [Char.le_def, UInt32.le_def, BitVec.le_def] at hb
    have hb2 : c.toNat ≤ 70 := hb
    cases h
    omega

lemma parseHexDigits_one_le (c : Char) : (parseHexDigits [c] 0).getD 0 ≤ 255 := by
  rcases h : hexDigitVal c with - | d
  · simp [parseHexDigits, h]
  · have := hexDigitVal_le h
    simp [parseHexDigits, h]
    omega

lemma parseHexDigits_two_le (c1 c2 : Char) :
    (parseHexDigits [c1, c2] 0).getD 0 ≤ 255 := by
  rcases h1 : hexDigitVal c1 with - | d1
  · simp [parseHexDigits, h1]
  · rcases h2 : hexDigitVal c2 with - | d2
    · simp [parseHexDigits, h1, h2]
    · have b1 := hexDigitVal_le h1
      have b2 := hexDigitVal_le h2
      simp [parseHexDigits, h1, h2]
      omega

lemma fromStrRadix16_getD_le :
    ∀ cs : List Char, cs.length ≤ 2 → (fromStrRadix16 cs).getD 0 ≤ 255
  | [], _ => by simp [fromStrRadix16]
  | [c], _ => by
    by_cases hc : c = '+'
    · simp [fromStrRadix16, hc]
    · simpa [fromStrRadix16, hc] using parseHexDigits_one_le c
  | [c1, c2], _ => by
    by_cases hc : c1 = '+'
    · simpa [fromStrRadix16, hc] using parseHexDigits_one_le c2
    · simpa [fromStrRadix16, hc] using parseHexDigits_two_le c1 c2
  | _ :: _ :: _ :: _, h => by simp at h

lemma hexToRgb_le (s : String) :
    (hexToRgb s).1 ≤ 255 ∧ (hexToRgb s).2.1 ≤ 255 ∧ (hexToRgb s).2.2 ≤ 255 := by
  unfold hexToRgb
  by_cases hlen : (s.toList.dropWhile (fun c => c = '#')).length = 6
  · rw [if_pos hlen]
    refine ⟨fromStrRadix16_getD_le _ (by simp), fromStrRadix16_getD_le _ (by simp),
      fromStrRadix16_getD_le _ (by simp)⟩
  · rw [if_neg hlen]
    exact ⟨by norm_num, by norm_num, by norm_num⟩

lemma ratToU8_natCast (n : ℕ) (h : n ≤ 255) : ratToU8 ((n : ℕ) : ℚ) = n := by
  unfold ratToU8
  rw [Int.floor_natCast]
  omega

lemma headD_mem {L : List ColorStop} (h : L ≠ []) : L.headD stopD ∈ L := by
  cases L with
  | nil => exact absurd rfl h
  | cons a t => simp

lemma getLastD_cons_cons (a b : ColorStop) (t : List ColorStop) (d : ColorStop) :
    (a :: b :: t).getLastD d = (b :: t).getLastD d := by
  simp [List.getLastD_cons]

lemma getLastD_mem : ∀ {L : List ColorStop}, L ≠ [] → L.getLastD stopD ∈ L
  | [], h => absurd rfl h
  | [a], _ => by simp
  | a :: b :: t, _ => by
    rw [getLastD_cons_cons]
    exact List.mem_cons_of_mem a (getLastD_mem (by simp))

lemma dropLast_append_getLastD :
    ∀ {L : List ColorStop}, L ≠ [] → L.dropLast ++ [L.getLastD stopD] = L
  | [], h => absurd rfl h
  | [a], _ => rfl
  | a :: b :: t, _ => by
    rw [getLastD_cons_cons, List.dropLast_cons₂, List.cons_append,
      @dropLast_append_getLastD (b :: t) (by simp)]

lemma sorted_headD_le {L : List ColorStop}
    (hs : L.Sorted (fun a b => a.position ≤ b.position)) {x : ColorStop}
    (hx : x ∈ L) : (L.headD stopD).position ≤ x.position := by
  cases L with
  | nil => simp at hx
  | cons a t =>
    rcases List.mem_cons.mp hx with rfl | hx'
    · simp
    · simpa using (List.sorted_cons.mp hs).1 x hx'

lemma sorted_le_getLastD :
    ∀ {L : List ColorStop}, L.Sorted (fun a b => a.position ≤ b.position) →
      ∀ x ∈ L, x.position ≤ (L.getLastD stopD).position
  | [], _, x, hx => by simp at hx
  | [a], _, x, hx => by
    simp only [List.mem_singleton] at hx
    subst hx
    simp
  | a :: b :: t, hs, x, hx => by
    have hcons := List.sorted_cons.mp hs
    rw [getLastD_cons_cons]
    rcases List.mem_cons.mp hx with rfl | hx'
    · calc x.position ≤ b.position := hcons.1 b (by simp)
        _ ≤ ((b :: t).getLastD stopD).position :=
          sorted_le_getLastD hcons.2 b (by simp)
    · exact sorted_le_getLastD hcons.2 x hx'

lemma two_le_length_of_mem_ne {l : List ColorStop} {x y : ColorStop}
    (hx : x ∈ l) (hy : y ∈ l) (hne : x ≠ y) : 2 ≤ l.length := by
  rcases l with - | ⟨a, - | ⟨b, t⟩⟩
  · simp at hx
  · simp only [List.mem_singleton] at hx hy
    exact absurd (hx.trans hy.symm) hne
  · simp only [List.length_cons]
    omega

lemma findSeg_first (a b : ColorStop) (rest : List ColorStop) (p : ℚ)
    (ha : a.position ≤ p) (hb : p ≤ b.position) :
    findSeg p (a :: b :: rest) = some (a, b) := by
  simp only [findSeg]
  rw [if_pos ⟨ha, hb⟩]

lemma findSeg_last :
    ∀ (L : List ColorStop) (p : ℚ), 2 ≤ L.length →
      (∀ s ∈ L.dropLast, s.position < p) →
      (L.getLastD stopD).position = p →
      ∃ a ∈ L.dropLast, a.position < p ∧
        findSeg p L = some (a, L.getLastD stopD)
  | [], _, h2, _, _ => by simp at h2
  | [a], _, h2, _, _ => by simp at h2
  | a :: b :: rest, p, _, hall, hlast => by
    cases rest with
    | nil =>
      have ha : a.position < p := hall a (by simp)
      have hb : b.position = p := by simpa using hlast
      refine ⟨a, by simp, ha, ?_⟩
      rw [findSeg_first a b [] p (le_of_lt ha) (le_of_eq hb.symm)]
      simp
    | cons c rest' =>
      have hbmem : b ∈ (a :: b :: c :: rest').dropLast := by
        rw [List.dropLast_cons₂, List.dropLast_cons₂]
        simp
      have hb : b.position < p := hall b hbmem
      obtain ⟨x, hx, hxp, hfs⟩ := findSeg_last (b :: c :: rest') p (by simp)
        (fun s hs => hall s (by
          rw [List.dropLast_cons₂]
          exact List.mem_cons_of_mem a hs))
        (by rwa [getLastD_cons_cons] at hlast)
      refine ⟨x, ?_, hxp, ?_⟩
      · rw [List.dropLast_cons₂]
        exact List.mem_cons_of_mem a hx
      · have hstep : findSeg p (a :: b :: c :: rest') = findSeg p (b :: c :: rest') := by
          rw [findSeg, if_neg (fun hcon => absurd hcon.2 (not_le.mpr hb))]
        rw [hstep, hfs]
        simp [List.getLastD_cons]

lemma gradientSlot_slot0 (L : List ColorStop) (hlen : 2 ≤ L.length)
    (hhead : (L.headD stopD).position = 0)
    (hpos : ∀ s ∈ L, 0 ≤ s.position) :
    gradientSlot L 1024 0 = hexToRgb (L.headD stopD).color := by
  rcases L with - | ⟨a, - | ⟨b, t⟩⟩
  · simp at hlen
  · simp at hlen
  · have ha0 : a.position = 0 := by simpa using hhead
    have hb0 : (0 : ℚ) ≤ b.position := hpos b (by simp)
    have hpos0 : ((0 : ℕ) : ℚ) / ((1024 - 1 : ℕ) : ℚ) = 0 := by norm_num
    simp only [gradientSlot, hpos0]
    rw [findSeg_first a b t 0 (le_of_eq ha0) hb0]
    have ht : (if |b.position - a.position| < epsF32 then (0 : ℚ)
        else ((0 : ℚ) - a.position) / (b.position - a.position)) = 0 := by
      split_ifs
      · rfl
      · rw [ha0]
        simp
    rw [ht]
    simp only [mul_one, mul_zero, add_zero, sub_zero]
    rw [ratToU8_natCast _ (hexToRgb_le a.color).1,
      ratToU8_natCast _ (hexToRgb_le a.color).2.1,
      ratToU8_natCast _ (hexToRgb_le a.color).2.2]
    simp

lemma gradientSlot_slot1023 (L : List ColorStop) (hlen : 2 ≤ L.length)
    (hlast : (L.getLastD stopD).position = 1)
    (hdrop : ∀ s ∈ L.dropLast, s.position ≤ 1 - epsF32) :
    gradientSlot L 1024 1023 = hexToRgb (L.getLastD stopD).color := by
  have hpos1 : ((1023 : ℕ) : ℚ) / ((1024 - 1 : ℕ) : ℚ) = 1 := by norm_num
  have hdrop' : ∀ s ∈ L.dropLast, s.position < 1 := fun s hs =>
    lt_of_le_of_lt (hdrop s hs) (by norm_num [epsF32])
  obtain ⟨x, hx, hxlt, hfs⟩ := findSeg_last L 1 hlen hdrop' hlast
  have hxeps : x.position ≤ 1 - epsF32 := hdrop x hx
  rw [show epsF32 = 1 / 8388608 from rfl] at hxeps
  simp only [gradientSlot, hpos1]
  rw [hfs]
  have hrange : ¬(|(L.getLastD stopD).position - x.position| < epsF32) := by
    rw [hlast, abs_of_nonneg (by linarith)]
    rw [show epsF32 = 1 / 8388608 from rfl]
    exact not_lt.mpr (by linarith)
  rw [if_neg hrange]
  have ht : ((1 : ℚ) - x.position) / ((L.getLastD stopD).position - x.position) = 1 := by
    rw [hlast]
    exact div_self (ne_of_gt (by linarith))
  rw [ht]
  simp only [sub_self, mul_zero, zero_add, mul_one]
  rw [ratToU8_natCast _ (hexToRgb_le (L.getLastD stopD).color).1,
    ratToU8_natCast _ (hexToRgb_le (L.getLastD stopD).color).2.1,
    ratToU8_natCast _ (hexToRgb_le (L.getLastD stopD).color).2.2]

/-- Claim C8 (amended): for a palette whose stops have positions in `[0, 1]`
(the data-model invariant), include a stop at position 0.0 and a stop at
position 1.0, with exactly ONE stop at position 1.0 and no other stop within
`f32::EPSILON` below 1.0, the built 1024-slot LUT satisfies: slot 0 equals
the first sorted stop's RGB and slot 1023 equals the last sorted stop's RGB
exactly.  (Without the uniqueness restriction the original claim is false —
with duplicate stops at position 1.0 the window scan stops at the FIRST stop
at 1.0, not the last; and a stop within `f32::EPSILON` below 1.0 triggers
the zero-length-segment guard, pinning slot 1023 to that stop instead.) -/
theorem C8_theorem (stops : List ColorStop)
    (hpos : ∀ s ∈ stops, 0 ≤ s.position ∧ s.position ≤ 1)
    (h0 : ∃ s ∈ stops, s.position = 0)
    (h1 : ∃ s ∈ stops, s.position = 1)
    (huniq : stops.countP (fun s => decide (s.position = 1)) = 1)
    (heps : ∀ s ∈ stops, s.position = 1 ∨ s.position ≤ 1 - epsF32) :
    ∃ g, createGradientMap stops 1024 = some g ∧
      g.getD 0 (0, 0, 0) = hexToRgb ((sortStops stops).headD stopD).color ∧
      g.getD 1023 (0, 0, 0) = hexToRgb ((sortStops stops).getLastD stopD).color := by
  obtain ⟨s0, hs0, hp0⟩ := h0
  obtain ⟨s1, hs1, hp1⟩ := h1
  have hne : stops ≠ [] := List.ne_nil_of_mem hs0
  have hs01 : s0 ≠ s1 := fun h => by
    rw [h, hp1] at hp0
    norm_num at hp0
  have hlen : 2 ≤ stops.length := two_le_length_of_mem_ne hs0 hs1 hs01
  have hsorted : (sortStops stops).Sorted (fun a b => a.position ≤ b.position) :=
    List.sorted_insertionSort _ stops
  have hmem : ∀ {x : ColorStop}, x ∈ sortStops stops ↔ x ∈ stops :=
    fun {x} => List.mem_insertionSort _
  have hlenL : (sortStops stops).length = stops.length :=
    List.length_insertionSort _ stops
  have hneL : sortStops stops ≠ [] := by
    intro h
    rw [h] at hlenL
    simp at hlenL
    omega
  have hlen2 : 2 ≤ (sortStops stops).length := by omega
  have hhead0 : ((sortStops stops).headD stopD).position = 0 := by
    refine le_antisymm ?_ (hpos _ (hmem.mp (headD_mem hneL))).1
    have := sorted_headD_le hsorted (hmem.mpr hs0)
    rwa [hp0] at this
  have hlast1 : ((sortStops stops).getLastD stopD).position = 1 := by
    refine le_antisymm (hpos _ (hmem.mp (getLastD_mem hneL))).2 ?_
    have := sorted_le_getLastD hsorted s1 (hmem.mpr hs1)
    rwa [hp1] at this
  have hcount : (sortStops stops).countP (fun s => decide (s.position = 1)) = 1 := by
    rw [sortStops, (List.perm_insertionSort _ stops).countP_eq]
    exact huniq
  have hdropLast : ∀ s ∈ (sortStops stops).dropLast, s.position ≤ 1 - epsF32 := by
    intro s hs
    rcases heps s (hmem.mp (List.mem_of_mem_dropLast hs)) with h1' | h2'
    · exfalso
      have hsplit := dropLast_append_getLastD hneL
      rw [← hsplit, List.countP_append] at hcount
      have hlastc : ([(sortStops stops).getLastD stopD].countP
          (fun s => decide (s.position = 1))) = 1 := by
        have h1d := hlast1
        rw [List.getLastD_eq_getLast?] at h1d
        simp [List.countP_cons, h1d]
      have hdropc : 0 < (sortStops stops).dropLast.countP
          (fun s => decide (s.position = 1)) :=
        List.countP_pos_iff.mpr ⟨s, hs, by simp [h1']⟩
      omega
    · exact h2'
  refine ⟨(List.range 1024).map (fun i => gradientSlot (sortStops stops) 1024 i),
    ?_, ?_, ?_⟩
  · unfold createGradientMap
    rw [if_neg (by simp [List.isEmpty_iff, hne])]
  · rw [getD_range_map _ _ (by norm_num : (0 : ℕ) < 1024)]
    exact gradientSlot_slot0 _ hlen2 hhead0 (fun s hs => (hpos s (hmem.mp hs)).1)
  · rw [getD_range_map _ _ (by norm_num : (1023 : ℕ) < 1024)]
    exact gradientSlot_slot1023 _ hlen2 hlast1 hdropLast

/-- Model of `config::grayscale_palette`, used as the witness palette. -/
def grayscaleStops : List ColorStop := [⟨0, "#000000"⟩, ⟨1, "#FFFFFF"⟩]

/-- Witness for C8: the 2-stop grayscale palette satisfies all hypotheses
and its LUT endpoints are the first and last stop colours. -/
theorem C8_witness :
    ((∀ s ∈ grayscaleStops, 0 ≤ s.position ∧ s.position ≤ 1) ∧
      (∃ s ∈ grayscaleStops, s.position = 0) ∧
      (∃ s ∈ grayscaleStops, s.position = 1) ∧
      grayscaleStops.countP (fun s => decide (s.position = 1)) = 1 ∧
      (∀ s ∈ grayscaleStops, s.position = 1 ∨ s.position ≤ 1 - epsF32)) ∧
    (∃ g, createGradientMap grayscaleStops 1024 = some g ∧
      g.getD 0 (0, 0, 0) = hexToRgb ((sortStops grayscaleStops).headD stopD).color ∧
      g.getD 1023 (0, 0, 0) =
        hexToRgb ((sortStops grayscaleStops).getLastD stopD).color) :=
  ⟨⟨by
      intro s hs
      rcases List.mem_pair.mp hs with rfl | rfl <;> norm_num,
    ⟨⟨0, "#000000"⟩, by simp [grayscaleStops], rfl⟩,
    ⟨⟨1, "#FFFFFF"⟩, by simp [grayscaleStops], rfl⟩,
    by norm_num [grayscaleStops, List.countP_cons],
    by
      intro s hs
      rcases List.mem_pair.mp hs with rfl | rfl
      · right
        norm_num [epsF32]
      · left
        rfl⟩,
    C8_theorem grayscaleStops
      (by
        intro s hs
        rcases List.mem_pair.mp hs with rfl | rfl <;> norm_num)
      ⟨⟨0, "#000000"⟩, by simp [grayscaleStops], rfl⟩
      ⟨⟨1, "#FFFFFF"⟩, by simp [grayscaleStops], rfl⟩
      (by norm_num [grayscaleStops, List.countP_cons])
      (by
        intro s hs
        rcases List.mem_pair.mp hs with rfl | rfl
        · right
          norm_num [epsF32]
        · left
          rfl)⟩

/-- Palette with duplicate stops at position 1.0, used to refute C8 as
stated: stops at 0.0 (black), 1.0 (red), 1.0 (blue). -/
def exC8Stops : List ColorStop :=
  [⟨0, "#000000"⟩, ⟨1, "#FF0000"⟩, ⟨1, "#0000FF"⟩]

set_option maxHeartbeats 1000000 in
lemma sortStops_exC8 : sortStops exC8Stops = exC8Stops := by
  norm_num [sortStops, exC8Stops, List.insertionSort, List.orderedInsert]

set_option maxHeartbeats 1000000 in
lemma gradientSlot_exC8_1023 :
    gradientSlot (sortStops exC8Stops) 1024 1023 = (255, 0, 0) := by
  rw [sortStops_exC8]
  norm_num [gradientSlot, exC8Stops, findSeg, ratToU8, epsF32,
    hexToRgb_black, hexToRgb_red, Int.toNat_ofNat]
  all_goals decide

/-- Counterexample to C8 as stated: the palette with sorted stops at
positions 0.0, 1.0, 1.0 includes stops at 0.0 and 1.0, yet `LUT[1023]` is
the FIRST position-1.0 stop's red `(255, 0, 0)`, not the last stop's blue
`(0, 0, 255)`. -/
theorem C8_counterexample :
    (createGradientMap exC8Stops 1024).map (fun g => g.getD 1023 (0, 0, 0)) =
      some (255, 0, 0) ∧
    hexToRgb ((sortStops exC8Stops).getLastD stopD).color = (0, 0, 255) ∧
    ((sortStops exC8Stops).getLastD stopD).position = 1 ∧
    ((sortStops exC8Stops).headD stopD).position = 0 ∧
    ((255, 0, 0) : Rgb) ≠ ((0, 0, 255) : Rgb) := by
  refine ⟨?_, ?_, ?_, ?_, by decide⟩
  · unfold createGradientMap
    rw [if_neg (by simp [exC8Stops])]
    simp only [Option.map_some']
    rw [getD_range_map _ _ (by norm_num : (1023 : ℕ) < 1024),
      gradientSlot_exC8_1023]
  · rw [sortStops_exC8]
    exact hexToRgb_blue
  · rw [sortStops_exC8]
    rfl
  · rw [sortStops_exC8]
    rfl
